import Mathlib

/-
  Verification of the Spanner-metadata-to-BigQuery pipeline
  (src/spanner_metad_to_bq.py) against its specification.

  Shallow embedding: the Google Cloud backends (Spanner admin API, Spanner
  query API, BigQuery) are modelled as explicit data passed to the embedded
  functions; a backend call that raises in Python is modelled as an
  `Except PyError` value.  Machine-facing glue (clients, logging, request
  objects) carries no data relevant to the claims and is dropped; every
  piece of control flow of the Python source is reproduced.
-/

namespace SpannerToBQ

/-- Exceptions visible to the script: `google.api_core.exceptions.NotFound`,
`PermissionDenied`, and the catch-all `Exception` branch. -/
inductive PyError where
  | notFound
  | permissionDenied
  | other (msg : String)
deriving DecidableEq, Repr

/-- A Python value as it occurs in the metadata rows: strings, 64-bit
integers (Spanner INT64, embedded as `Int`), and `None`. -/
inductive Value where
  | str (s : String)
  | int (n : Int)
  | null
deriving DecidableEq, Repr

/-- A Python `dict` with string keys, in insertion order (as Python 3
dicts preserve insertion order). -/
abbrev Dict := List (String × Value)

/-- `d[k] = v` on a Python dict: update in place if the key exists,
otherwise append at the end (insertion-order semantics). -/
def dictSet : Dict → String → Value → Dict
  | [], k, v => [(k, v)]
  | (k', v') :: rest, k, v =>
      if k' = k then (k', v) :: rest else (k', v') :: dictSet rest k v

/-- `d.pop(k)`: `none` models the `KeyError` raised when the key is
absent; otherwise returns the value and the dict without that key. -/
def dictPop : Dict → String → Option (Value × Dict)
  | [], _ => none
  | (k', v') :: rest, k =>
      if k' = k then some (v', rest)
      else (dictPop rest k).map (fun p => (p.1, (k', v') :: p.2))

/-- `k in d` on a Python dict. -/
def dictHasKey (d : Dict) (k : String) : Bool :=
  d.any (fun kv => kv.1 == k)

/-- `d[k]` as an option (lookup of the first, hence only, binding). -/
def dictGet (d : Dict) (k : String) : Option Value :=
  (d.find? (fun kv => kv.1 == k)).map (fun kv => kv.2)

/-- `dict(zip(cols, row))`: pairs are inserted left to right, `zip`
truncating to the shorter list, exactly as in Python. -/
def dictOfZip (cols : List String) (row : List Value) : Dict :=
  (List.zip cols row).foldl (fun d kv => dictSet d kv.1 kv.2) []

/- ---------- string helpers used by the source ---------- -/

/-- `'/' in s` on a Python string (single-character membership). -/
def hasSlash (s : String) : Bool :=
  s.data.any (fun c => c = '/')

/-- Character-list prefix test (helper for substring containment). -/
def isPrefixCh : List Char → List Char → Bool
  | [], _ => true
  | _ :: _, [] => false
  | a :: as, b :: bs => a = b && isPrefixCh as bs

/-- `pat in s` on Python strings: substring containment. -/
def containsSub (pat : List Char) : List Char → Bool
  | [] => pat.isEmpty
  | c :: rest => isPrefixCh pat (c :: rest) || containsSub pat rest

/-- `s.split('/')[-1]`: the suffix after the last `'/'` (the whole
string when there is no `'/'`). -/
def lastSegment (s : String) : String :=
  ⟨(s.data.reverse.takeWhile (fun c => c ≠ '/')).reverse⟩

/- ---------- discovery: list_spanner_resources ---------- -/

/-- An instance object returned by `InstanceAdminClient.list_instances`;
only its `name` field is read by the script. -/
structure InstanceInfo where
  name : String
deriving DecidableEq, Repr

/-- A database object returned by `DatabaseAdminClient.list_databases`;
only its `name` field is read by the script. -/
structure DatabaseInfo where
  name : String
deriving DecidableEq, Repr

/-- The `{"instance_id": ..., "database_id": ...}` dict appended to
`resources` by `list_spanner_resources`. -/
structure Resource where
  instance_id : String
  database_id : String
deriving DecidableEq, Repr

/-- The Spanner admin backend as seen by `list_spanner_resources`:
`instances` is `list_instances(parent=...)` keyed by the parent string,
`databases` is `list_databases(request)` keyed by the instance name the
request is built from; either call may raise. -/
structure AdminBackend where
  instances : String → Except PyError (List InstanceInfo)
  databases : String → Except PyError (List DatabaseInfo)

/-- Did a backend call return normally (as opposed to raising)? -/
def callOk {α : Type} : Except PyError α → Bool
  | .ok _ => true
  | .error _ => false

/-- The body of the inner `for db in databases` loop: a resource is kept
iff `'/' in db.name and 'backups' not in db.name`, with both identifiers
stripped to their last path segment. -/
def dbFilter (inst : InstanceInfo) (db : DatabaseInfo) : Option Resource :=
  if hasSlash db.name && !(containsSub "backups".data db.name.data) then
    some ⟨lastSegment inst.name, lastSegment db.name⟩
  else
    none

/-- The instance loop of `list_spanner_resources`, carrying the
`resources` accumulator.  A raising `list_databases` call is caught by
the enclosing `except`, after which the function returns the accumulator
as already built (the `return resources` after the handlers). -/
def lsrGo (b : AdminBackend) : List InstanceInfo → List Resource → List Resource
  | [], acc => acc
  | inst :: rest, acc =>
      match b.databases inst.name with
      | .error _ => acc
      | .ok dbs => lsrGo b rest (acc ++ dbs.filterMap (dbFilter inst))

/-- `list_spanner_resources(project_id)`: lists instances under
`"projects/" + project_id`, then databases per instance, filtering and
stripping identifiers; every exception is caught and the current
`resources` list is returned (empty when `list_instances` itself raised). -/
def list_spanner_resources (project_id : String) (b : AdminBackend) : List Resource :=
  match b.instances ("projects/" ++ project_id) with
  | .error _ => []
  | .ok insts => lsrGo b insts []

/-- The contribution of one instance whose `list_databases` call
succeeded (used to describe `list_spanner_resources`' output). -/
def instResources (b : AdminBackend) (inst : InstanceInfo) : List Resource :=
  match b.databases inst.name with
  | .error _ => []
  | .ok dbs => dbs.filterMap (dbFilter inst)

/- ---------- extraction: get_spanner_metadata ---------- -/

/-- A result set of `snapshot.execute_sql`: the field names of its
descriptor (`results.fields`) and its rows as value tuples. -/
structure ResultSet where
  fieldNames : List String
  rows : List (List Value)
deriving DecidableEq, Repr

/-- The Spanner query backend as seen by one `get_spanner_metadata`
call: `probe` is the outcome of `execute_sql(METADATA_QUERY_C)` (the
`limit 1` probe used only for its descriptor), `query` the outcome of
`execute_sql(METADATA_QUERY)`.  A failing client/instance/database/
snapshot acquisition is modelled as a failing `probe`. -/
structure SpannerBackend where
  probe : Except PyError ResultSet
  query : Except PyError ResultSet
deriving Repr

/-- The loop body over one result row: `dict(zip(column_names, row))`,
enrichment with the three provenance ids, then
`row_dict['spanner_data_type'] = row_dict.pop('spanner_type')` (a
missing key raises `KeyError`, caught by the catch-all handler). -/
def buildRow (cols : List String) (project_id instance_id database_id : String)
    (row : List Value) : Except PyError Dict :=
  let rd := dictOfZip cols row
  let rd := dictSet rd "project_id" (.str project_id)
  let rd := dictSet rd "instance_id" (.str instance_id)
  let rd := dictSet rd "database_id" (.str database_id)
  match dictPop rd "spanner_type" with
  | none => .error (.other "KeyError: spanner_type")
  | some (v, rd2) => .ok (dictSet rd2 "spanner_data_type" v)

/-- The `for row in results` loop building `metadata_rows`; an exception
at any row aborts the loop (and the rows built so far are discarded by
the exception handler). -/
def buildRows (cols : List String) (project_id instance_id database_id : String) :
    List (List Value) → Except PyError (List Dict)
  | [] => .ok []
  | row :: rest =>
      match buildRow cols project_id instance_id database_id row with
      | .error e => .error e
      | .ok rd =>
          match buildRows cols project_id instance_id database_id rest with
          | .error e => .error e
          | .ok rds => .ok (rd :: rds)

/-- The `try:` body of `get_spanner_metadata`: run the probe query, read
`column_names` from its descriptor, run the real query, and build the
row dicts.  Any raise surfaces as `.error`. -/
def extractBody (project_id instance_id database_id : String)
    (b : SpannerBackend) : Except PyError (List Dict) :=
  match b.probe with
  | .error e => .error e
  | .ok probeRes =>
      match b.query with
      | .error e => .error e
      | .ok res => buildRows probeRes.fieldNames project_id instance_id database_id res.rows

/-- `get_spanner_metadata(project_id, instance_id, database_id)`: the
try body, with all three `except` clauses (`NotFound`,
`PermissionDenied`, `Exception`) falling through to `return []`. -/
def get_spanner_metadata (project_id instance_id database_id : String)
    (b : SpannerBackend) : List Dict :=
  match extractBody project_id instance_id database_id b with
  | .ok rows => rows
  | .error _ => []

/- ---------- the INFORMATION_SCHEMA queries, as query semantics ---------- -/

/-- One row of `INFORMATION_SCHEMA.COLUMNS` of a source database, with
the ten fields selected by `METADATA_QUERY`. -/
structure ColumnRecord where
  table_catalog : String
  table_schema : String
  table_name : String
  column_name : String
  ordinal_position : Int
  column_default : Value
  is_nullable : String
  spanner_type : String
  is_generated : String
  generation_expression : Value
deriving DecidableEq, Repr

/-- The value tuple a catalog row contributes to a result set, in the
order of the SELECT list shared by both queries. -/
def recordTuple (r : ColumnRecord) : List Value :=
  [.str r.table_catalog, .str r.table_schema, .str r.table_name,
   .str r.column_name, .int r.ordinal_position, r.column_default,
   .str r.is_nullable, .str r.spanner_type, .str r.is_generated,
   r.generation_expression]

/-- The field names of the SELECT list shared by `METADATA_QUERY_C` and
`METADATA_QUERY` (the result-set descriptor of either query). -/
def metadataQueryCols : List String :=
  ["table_catalog", "table_schema", "table_name", "column_name",
   "ordinal_position", "column_default", "is_nullable", "spanner_type",
   "is_generated", "generation_expression"]

/-- Semantics of `METADATA_QUERY` on a catalog: the rows whose
`table_schema = ''` (the `WHERE` clause), projected to the SELECT list. -/
def runMetadataQuery (catalog : List ColumnRecord) : ResultSet :=
  ⟨metadataQueryCols, (catalog.filter (fun r => r.table_schema == "")).map recordTuple⟩

/-- Semantics of `METADATA_QUERY_C` on a catalog: same SELECT list,
`limit 1`, no `WHERE` clause. -/
def runProbeQuery (catalog : List ColumnRecord) : ResultSet :=
  ⟨metadataQueryCols, (catalog.map recordTuple).take 1⟩

/-- The backend of a healthy database with the given
`INFORMATION_SCHEMA.COLUMNS` content: both queries succeed. -/
def SpannerBackend.ofCatalog (catalog : List ColumnRecord) : SpannerBackend :=
  ⟨.ok (runProbeQuery catalog), .ok (runMetadataQuery catalog)⟩

/-- The dict `get_spanner_metadata` builds for one catalog row: the ten
selected fields in SELECT order with `spanner_type` removed, then the
three provenance ids, then `spanner_data_type` (appended last by the
rename). -/
def builtRow (project_id instance_id database_id : String) (r : ColumnRecord) : Dict :=
  [("table_catalog", .str r.table_catalog), ("table_schema", .str r.table_schema),
   ("table_name", .str r.table_name), ("column_name", .str r.column_name),
   ("ordinal_position", .int r.ordinal_position), ("column_default", r.column_default),
   ("is_nullable", .str r.is_nullable), ("is_generated", .str r.is_generated),
   ("generation_expression", r.generation_expression),
   ("project_id", .str project_id), ("instance_id", .str instance_id),
   ("database_id", .str database_id), ("spanner_data_type", .str r.spanner_type)]

/- ---------- the BigQuery sink: setup_bigquery_table ---------- -/

/-- One `bigquery.SchemaField(name, field_type, mode)`; an unspecified
mode defaults to `"NULLABLE"`. -/
structure SchemaField where
  name : String
  fieldType : String
  mode : String
deriving DecidableEq, Repr

/-- The `BQ_SCHEMA` list of the source: the fixed 13-field destination
schema. -/
def BQ_SCHEMA : List SchemaField :=
  [⟨"project_id", "STRING", "REQUIRED"⟩,
   ⟨"instance_id", "STRING", "REQUIRED"⟩,
   ⟨"database_id", "STRING", "REQUIRED"⟩,
   ⟨"table_catalog", "STRING", "NULLABLE"⟩,
   ⟨"table_schema", "STRING", "NULLABLE"⟩,
   ⟨"table_name", "STRING", "REQUIRED"⟩,
   ⟨"column_name", "STRING", "REQUIRED"⟩,
   ⟨"ordinal_position", "INTEGER", "NULLABLE"⟩,
   ⟨"column_default", "STRING", "NULLABLE"⟩,
   ⟨"is_nullable", "STRING", "NULLABLE"⟩,
   ⟨"spanner_data_type", "STRING", "REQUIRED"⟩,
   ⟨"is_generated", "STRING", "NULLABLE"⟩,
   ⟨"generation_expression", "STRING", "NULLABLE"⟩]

/-- The destination table: its schema and its stored rows, in load
order. -/
structure BQTableState where
  schema : List SchemaField
  rows : List Dict
deriving Repr

/-- The destination side of the run: whether the dataset exists and the
table, when it exists.  `client.get_dataset` / `get_table` raise
`NotFound` exactly when the corresponding component is absent. -/
structure BQState where
  datasetExists : Bool
  table : Option BQTableState
deriving Repr

/-- `setup_bigquery_table(client)`: create the dataset when
`get_dataset` raises `NotFound`; then either truncate the existing
table (keeping its schema) or create it with `BQ_SCHEMA` when
`get_table` raises `NotFound`. -/
def setup_bigquery_table (s : BQState) : BQState :=
  let s1 := if s.datasetExists then s else { s with datasetExists := true }
  match s1.table with
  | some t => { s1 with table := some { t with rows := [] } }
  | none => { s1 with table := some ⟨BQ_SCHEMA, []⟩ }

/-- `client.insert_rows_json(table_ref, rows)` as a sink-state update:
the submitted rows are appended to the table in order. -/
def bqInsert (s : BQState) (rows : List Dict) : BQState :=
  { s with table := s.table.map (fun t => { t with rows := t.rows ++ rows }) }

/- ---------- the driver: main ---------- -/

/-- The whole environment one run talks to: the admin backend for
discovery, the per-database Spanner backend for extraction (keyed by
the project/instance/database ids the script builds its clients from),
and the per-row error report `insert_rows_json` returns for a batch. -/
structure Env where
  admin : AdminBackend
  spanner : String → String → String → SpannerBackend
  insertErrors : List Dict → List String

/-- State threaded through `main`'s project loop: the
`all_metadata_rows` buffer, the rows of every `insert_rows_json` call
made so far (in call order), the number of times the flush-cadence
branch was entered, the destination state, and the logged per-row
insert errors. -/
structure RunState where
  buffer : List Dict
  inserts : List (List Dict)
  flushEvals : Nat
  sink : BQState
  insertErrorLog : List (List String)
deriving Repr

/-- The body of the flush-cadence branch: on a non-empty buffer, one
bulk `insert_rows_json` of the whole buffer, logging (not retrying) any
reported per-row errors, then `all_metadata_rows = []`; on an empty
buffer only the "No new metadata to load" log line. -/
def flushStep (env : Env) (s : RunState) : RunState :=
  if s.buffer.isEmpty then s
  else
    let errs := env.insertErrors s.buffer
    { buffer := []
      inserts := s.inserts ++ [s.buffer]
      flushEvals := s.flushEvals
      sink := bqInsert s.sink s.buffer
      insertErrorLog := if errs.isEmpty then s.insertErrorLog
                        else s.insertErrorLog ++ [errs] }

/-- All rows one project contributes to the buffer: extraction over the
discovered resources, in discovery order. -/
def projectRows (env : Env) (project_id : String) : List Dict :=
  ((list_spanner_resources project_id env.admin).map
    (fun r => get_spanner_metadata project_id r.instance_id r.database_id
        (env.spanner project_id r.instance_id r.database_id))).flatten

/-- One iteration of `main`'s `for i, project_id in enumerate(...)`
loop (`i` is the 0-based index, `N` is `total_projects`): when
discovery yields nothing the iteration `continue`s — skipping the
cadence check — otherwise the extracted rows are appended and the
cadence `(i + 1) % 5 == 0 or (i + 1) == total_projects` decides whether
the flush branch runs. -/
def mainStep (env : Env) (N i : Nat) (project_id : String) (s : RunState) : RunState :=
  if (list_spanner_resources project_id env.admin).isEmpty then s
  else
    let s1 := { s with buffer := s.buffer ++ projectRows env project_id }
    if (i + 1) % 5 = 0 ∨ i + 1 = N then
      flushStep env { s1 with flushEvals := s1.flushEvals + 1 }
    else s1

/-- The project loop of `main`, from index `i`. -/
def mainLoop (env : Env) (N : Nat) : Nat → List String → RunState → RunState
  | _, [], s => s
  | i, project_id :: rest, s =>
      mainLoop env N (i + 1) rest (mainStep env N i project_id s)

/-- `main()`, parameterised by the configured `TARGET_PROJECTS` list and
the initial destination state: provision the destination once via
`setup_bigquery_table`, then run the project loop on an empty buffer. -/
def runMain (env : Env) (projects : List String) (sink0 : BQState) : RunState :=
  mainLoop env projects.length 0 projects
    ⟨[], [], 0, setup_bigquery_table sink0, []⟩

/- ---------- a counting function for the flush cadence ---------- -/

/-- Number of indices `k ∈ [i+1, i+len]` at which the cadence condition
`k % 5 == 0 or k == N` holds (how often the cadence branch would run
over `len` consecutive loop iterations starting at 0-based index `i`,
were it evaluated at every iteration). -/
def flushCount (N : Nat) : Nat → Nat → Nat
  | _, 0 => 0
  | i, len + 1 =>
      (if (i + 1) % 5 = 0 ∨ i + 1 = N then 1 else 0) + flushCount N (i + 1) len

/- ---------- concrete fixtures used in scenario theorems ---------- -/

/-- Admin backend for the C3 scenario taken literally: the database
listing yields the raw identifiers `"db1"` and `"db1/backups/b1"`. -/
def c3RawBackend : AdminBackend :=
  { instances := fun _ => .ok [⟨"i1"⟩],
    databases := fun _ => .ok [⟨"db1"⟩, ⟨"db1/backups/b1"⟩] }

/-- Admin backend for the C3 scenario with the fully-qualified resource
names the Spanner API actually returns for those two databases. -/
def c3FqBackend : AdminBackend :=
  { instances := fun _ => .ok [⟨"projects/P1/instances/i1"⟩],
    databases := fun _ => .ok [⟨"projects/P1/instances/i1/databases/db1"⟩,
                               ⟨"projects/P1/instances/i1/databases/db1/backups/b1"⟩] }

/-- Admin backend on which discovery fails midway: instance `iA`'s
database listing succeeds, instance `iB`'s raises `PermissionDenied`. -/
def c2Backend : AdminBackend :=
  { instances := fun _ => .ok [⟨"projects/P1/instances/iA"⟩,
                               ⟨"projects/P1/instances/iB"⟩],
    databases := fun n =>
      if n = "projects/P1/instances/iA"
      then .ok [⟨"projects/P1/instances/iA/databases/d1"⟩]
      else .error .permissionDenied }

/-- A one-column catalog row used by several concrete runs. -/
def c1Rec : ColumnRecord :=
  ⟨"", "", "t1", "c1", 1, .null, "NO", "INT64", "NEVER", .null⟩

/-- Environment in which project `p1` has one instance with one
database holding `c1Rec`, and every other project has no instances. -/
def c1Env : Env :=
  { admin := { instances := fun parent =>
                 if parent = "projects/p1"
                 then .ok [⟨"projects/p1/instances/iA"⟩]
                 else .ok [],
               databases := fun _ =>
                 .ok [⟨"projects/p1/instances/iA/databases/d1"⟩] },
    spanner := fun _ _ _ => SpannerBackend.ofCatalog [c1Rec],
    insertErrors := fun _ => [] }

/-- An initial destination with neither dataset nor table. -/
def bq0 : BQState := ⟨false, none⟩

/-- The two-column catalog of the C8 scenario:
`[(t1,c1,1,...), (t1,c2,2,...)]` in the default schema. -/
def c8Catalog : List ColumnRecord :=
  [⟨"", "", "t1", "c1", 1, .null, "NO", "INT64", "NEVER", .null⟩,
   ⟨"", "", "t1", "c2", 2, .null, "YES", "STRING(36)", "NEVER", .null⟩]

/-- A Spanner backend whose very first backend operation raises
`NotFound`. -/
def badSpanner : SpannerBackend := ⟨.error .notFound, .ok ⟨[], []⟩⟩

/-- An already-provisioned destination holding one leftover row from a
previous run. -/
def sProvisioned : BQState :=
  ⟨true, some ⟨BQ_SCHEMA, [[("column_name", .str "stale")]]⟩⟩

/-- A run state with one buffered row (used to exercise the flush). -/
def sBuffered : RunState :=
  ⟨[[("column_name", .str "c1")]], [], 0, ⟨true, some ⟨BQ_SCHEMA, []⟩⟩, []⟩

/-- A run state with an empty buffer. -/
def sEmptyBuf : RunState :=
  ⟨[], [[[("column_name", .str "c0")]]], 1, ⟨true, some ⟨BQ_SCHEMA, []⟩⟩, []⟩

/- ================== helper lemmas ================== -/

theorem dictHasKey_dictSet_self (d : Dict) (k : String) (v : Value) :
    dictHasKey (dictSet d k v) k = true := by
  induction d with
  | nil => simp [dictSet, dictHasKey]
  | cons kv rest ih =>
    obtain ⟨k', v'⟩ := kv
    simp only [dictSet]
    split
    · rename_i h
      simp [dictHasKey, h]
    · simp only [dictHasKey, List.any_cons] at ih ⊢
      simp [ih]

theorem buildRow_hasKey (cols : List String) (p i d : String) (row : List Value)
    (rd : Dict) (h : buildRow cols p i d row = .ok rd) :
    dictHasKey rd "spanner_data_type" = true := by
  simp only [buildRow] at h
  split at h
  · cases h
  · cases h
    exact dictHasKey_dictSet_self _ _ _

theorem buildRows_hasKey (cols : List String) (p i d : String) :
    ∀ (rows : List (List Value)) (out : List Dict),
      buildRows cols p i d rows = .ok out →
      ∀ rd ∈ out, dictHasKey rd "spanner_data_type" = true := by
  intro rows
  induction rows with
  | nil =>
    intro out h rd hrd
    simp only [buildRows] at h
    cases h
    cases hrd
  | cons row rest ih =>
    intro out h rd hrd
    simp only [buildRows] at h
    cases hb : buildRow cols p i d row with
    | error e => rw [hb] at h; cases h
    | ok rd1 =>
      rw [hb] at h
      cases hr : buildRows cols p i d rest with
      | error e => rw [hr] at h; cases h
      | ok rds =>
        rw [hr] at h
        cases h
        rcases List.mem_cons.1 hrd with h1 | h1
        · subst h1; exact buildRow_hasKey cols p i d row rd hb
        · exact ih rds hr rd h1

theorem buildRow_recordTuple (p i d : String) (r : ColumnRecord) :
    buildRow metadataQueryCols p i d (recordTuple r) = .ok (builtRow p i d r) := rfl

theorem buildRows_map_recordTuple (p i d : String) (l : List ColumnRecord) :
    buildRows metadataQueryCols p i d (l.map recordTuple) =
      .ok (l.map (builtRow p i d)) := by
  induction l with
  | nil => rfl
  | cons r rest ih =>
    simp only [List.map_cons, buildRows, buildRow_recordTuple, ih]

theorem get_spanner_metadata_ofCatalog (p i d : String) (catalog : List ColumnRecord) :
    get_spanner_metadata p i d (SpannerBackend.ofCatalog catalog) =
      (catalog.filter (fun r => r.table_schema == "")).map (builtRow p i d) := by
  simp only [get_spanner_metadata, extractBody, SpannerBackend.ofCatalog,
    runProbeQuery, runMetadataQuery, buildRows_map_recordTuple]

/- ================== claim theorems: extraction ================== -/

/-- C4 [confirmed]: if any backend operation inside
`get_spanner_metadata`'s `try` body raises (NotFound, PermissionDenied,
or any other error, including the `KeyError` of the rename), the call
returns the empty list; and on every input the call returns normally,
its value being either the try body's rows or `[]` — it never
propagates an exception past its boundary. -/
theorem get_spanner_metadata_absorbs_errors (project_id instance_id database_id : String)
    (b : SpannerBackend) (e : PyError)
    (h : extractBody project_id instance_id database_id b = .error e) :
    get_spanner_metadata project_id instance_id database_id b = [] ∧
    ∀ b2, get_spanner_metadata project_id instance_id database_id b2 = [] ∨
      extractBody project_id instance_id database_id b2 =
        .ok (get_spanner_metadata project_id instance_id database_id b2) := by
  constructor
  · simp only [get_spanner_metadata, h]
  · intro b2
    cases h2 : extractBody project_id instance_id database_id b2 with
    | error e2 => left; simp only [get_spanner_metadata, h2]
    | ok rows => right; simp only [get_spanner_metadata, h2]

theorem get_spanner_metadata_absorbs_errors_witness :
    get_spanner_metadata "p" "i" "d" badSpanner = [] ∧
    (get_spanner_metadata "p" "i" "d" badSpanner = [] ∨
      extractBody "p" "i" "d" badSpanner =
        .ok (get_spanner_metadata "p" "i" "d" badSpanner)) :=
  ⟨(get_spanner_metadata_absorbs_errors "p" "i" "d" badSpanner .notFound rfl).1,
   (get_spanner_metadata_absorbs_errors "p" "i" "d" badSpanner .notFound rfl).2 badSpanner⟩

/-- C7 [confirmed]: every row returned by `get_spanner_metadata` carries
the key `spanner_data_type` — the rename from the catalog's native
`spanner_type` field is applied to every returned row (a row on which
it could not be applied would raise, emptying the whole result). -/
theorem extract_rename_always_applied (project_id instance_id database_id : String)
    (b : SpannerBackend) :
    ∀ rd ∈ get_spanner_metadata project_id instance_id database_id b,
      dictHasKey rd "spanner_data_type" = true := by
  intro rd hrd
  simp only [get_spanner_metadata] at hrd
  cases hb : extractBody project_id instance_id database_id b with
  | error e => rw [hb] at hrd; cases hrd
  | ok rows =>
    rw [hb] at hrd
    simp only [extractBody] at hb
    cases hp : b.probe with
    | error e => rw [hp] at hb; cases hb
    | ok probeRes =>
      rw [hp] at hb
      cases hq : b.query with
      | error e => rw [hq] at hb; cases hb
      | ok res =>
        rw [hq] at hb
        exact buildRows_hasKey probeRes.fieldNames project_id instance_id database_id
          res.rows rows hb rd hrd

theorem extract_rename_always_applied_witness :
    dictHasKey (builtRow "p" "i" "d" c1Rec) "spanner_data_type" = true :=
  extract_rename_always_applied "p" "i" "d" (SpannerBackend.ofCatalog [c1Rec])
    (builtRow "p" "i" "d" c1Rec) (by decide)

/-- C8 [confirmed]: on a database whose catalog holds the two
default-schema column rows `(t1,c1,1,...)` and `(t1,c2,2,...)`,
`get_spanner_metadata` returns exactly two rows, in result-set order,
both with `table_name = "t1"`, with `ordinal_position` 1 and 2
respectively, and with the three provenance fields equal to the call's
arguments on every returned row. -/
theorem extract_two_column_scenario (p i d : String) :
    ∃ r1 r2, get_spanner_metadata p i d (SpannerBackend.ofCatalog c8Catalog) = [r1, r2] ∧
      dictGet r1 "table_name" = some (.str "t1") ∧
      dictGet r2 "table_name" = some (.str "t1") ∧
      dictGet r1 "ordinal_position" = some (.int 1) ∧
      dictGet r2 "ordinal_position" = some (.int 2) ∧
      dictGet r1 "project_id" = some (.str p) ∧
      dictGet r1 "instance_id" = some (.str i) ∧
      dictGet r1 "database_id" = some (.str d) ∧
      dictGet r2 "project_id" = some (.str p) ∧
      dictGet r2 "instance_id" = some (.str i) ∧
      dictGet r2 "database_id" = some (.str d) :=
  ⟨_, _, rfl, rfl, rfl, rfl, rfl, rfl, rfl, rfl, rfl, rfl, rfl⟩

/-- C9 [confirmed]: `METADATA_QUERY` filters on `table_schema = ''`, so
every row a successful extraction returns has `table_schema` equal to
the empty string; rows of named secondary schemas never appear. -/
theorem extract_default_schema_only (project_id instance_id database_id : String)
    (catalog : List ColumnRecord) :
    ∀ rd ∈ get_spanner_metadata project_id instance_id database_id
        (SpannerBackend.ofCatalog catalog),
      dictGet rd "table_schema" = some (.str "") := by
  intro rd hrd
  rw [get_spanner_metadata_ofCatalog] at hrd
  rcases List.mem_map.1 hrd with ⟨r, hr, rfl⟩
  rcases List.mem_filter.1 hr with ⟨-, hs⟩
  have hs' : r.table_schema = "" := by simpa using hs
  have hb : dictGet (builtRow project_id instance_id database_id r) "table_schema" =
      some (.str r.table_schema) := rfl
  rw [hb, hs']

theorem extract_default_schema_only_witness :
    dictGet (builtRow "p" "i" "d" c1Rec) "table_schema" = some (.str "") :=
  extract_default_schema_only "p" "i" "d" [c1Rec]
    (builtRow "p" "i" "d" c1Rec) (by decide)

/- ================== claim theorems: discovery ================== -/

theorem lsrGo_spec (b : AdminBackend) :
    ∀ (insts : List InstanceInfo) (acc : List Resource),
      ∃ pre suf, insts = pre ++ suf ∧
        (∀ j ∈ pre, callOk (b.databases j.name) = true) ∧
        lsrGo b insts acc = acc ++ (pre.map (instResources b)).flatten ∧
        (suf = [] ∨ ∃ j js, suf = j :: js ∧ callOk (b.databases j.name) = false) := by
  intro insts
  induction insts with
  | nil =>
    intro acc
    exact ⟨[], [], rfl, by simp, by simp [lsrGo], Or.inl rfl⟩
  | cons inst rest ih =>
    intro acc
    cases hdb : b.databases inst.name with
    | error e =>
      exact ⟨[], inst :: rest, rfl, by simp, by simp [lsrGo, hdb],
        Or.inr ⟨inst, rest, rfl, by simp [hdb, callOk]⟩⟩
    | ok dbs =>
      obtain ⟨pre, suf, heq, hok, hgo, hsuf⟩ := ih (acc ++ dbs.filterMap (dbFilter inst))
      refine ⟨inst :: pre, suf, by rw [heq, List.cons_append], ?_, ?_, hsuf⟩
      · intro j hj
        rcases List.mem_cons.1 hj with h1 | h1
        · subst h1; simp [hdb, callOk]
        · exact hok j h1
      · simp only [lsrGo, hdb]
        rw [hgo]
        simp [instResources, hdb, List.append_assoc]

/-- C2 counterexample: on a project whose second instance raises
`PermissionDenied` after the first instance's database was already
enumerated, `list_spanner_resources` returns the partially accumulated
list `[{iA, d1}]`, not the empty sequence the claim demands. -/
theorem list_spanner_resources_partial_cex :
    list_spanner_resources "P1" c2Backend =
      [{ instance_id := "iA", database_id := "d1" }] ∧
    list_spanner_resources "P1" c2Backend ≠ [] :=
  ⟨by decide, by decide⟩

/-- C2 [corrected]: on a discovery failure `list_spanner_resources`
never raises, but it returns the resources accumulated before the
failing call rather than an unconditionally empty sequence: the result
is empty exactly when the failure precedes every successful append
(e.g. when `list_instances` itself raises); when `list_databases` of a
later instance raises, the earlier instances' resources are returned. -/
theorem list_spanner_resources_failure_amended (project_id : String) (b : AdminBackend) :
    (callOk (b.instances ("projects/" ++ project_id)) = false →
      list_spanner_resources project_id b = []) ∧
    ∀ insts, b.instances ("projects/" ++ project_id) = .ok insts →
      ∃ pre suf, insts = pre ++ suf ∧
        (∀ j ∈ pre, callOk (b.databases j.name) = true) ∧
        list_spanner_resources project_id b = (pre.map (instResources b)).flatten ∧
        (suf = [] ∨ ∃ j js, suf = j :: js ∧ callOk (b.databases j.name) = false) := by
  constructor
  · intro h
    simp only [list_spanner_resources]
    cases hi : b.instances ("projects/" ++ project_id) with
    | error e => rfl
    | ok insts => rw [hi] at h; simp [callOk] at h
  · intro insts hi
    simp only [list_spanner_resources, hi]
    obtain ⟨pre, suf, h1, h2, h3, h4⟩ := lsrGo_spec b insts []
    exact ⟨pre, suf, h1, h2, by rw [h3]; simp, h4⟩

theorem list_spanner_resources_failure_amended_witness :
    ∃ pre suf,
      ([⟨"projects/P1/instances/iA"⟩, ⟨"projects/P1/instances/iB"⟩] :
          List InstanceInfo) = pre ++ suf ∧
      (∀ j ∈ pre, callOk (c2Backend.databases j.name) = true) ∧
      list_spanner_resources "P1" c2Backend = (pre.map (instResources c2Backend)).flatten ∧
      (suf = [] ∨ ∃ j js, suf = j :: js ∧ callOk (c2Backend.databases j.name) = false) :=
  (list_spanner_resources_failure_amended "P1" c2Backend).2 _ rfl

/-- C3 counterexample: with the raw identifiers `"db1"` and
`"db1/backups/b1"` exactly as the claim states them, the filter
`'/' in db.name` rejects `"db1"` (no path separator), so the result is
`[]`, not `[{instance_id: "i1", database_id: "db1"}]`. -/
theorem list_spanner_resources_scenario_cex :
    list_spanner_resources "P1" c3RawBackend ≠
      [{ instance_id := "i1", database_id := "db1" }] ∧
    list_spanner_resources "P1" c3RawBackend = [] :=
  ⟨by decide, by decide⟩

/-- C3 [corrected]: a discovered database is returned only if its raw
identifier both contains a path separator `'/'` and does not contain
the backup marker `"backups"`, stripped to its last path segment.  On
the claim's literal raw identifiers `["db1", "db1/backups/b1"]` the
result is therefore empty; the claimed output
`[{instance_id: "i1", database_id: "db1"}]` is produced when the
listing yields the fully-qualified resource names
`projects/P1/instances/i1/databases/db1` (and the backup path, which is
excluded). -/
theorem list_spanner_resources_scenario_amended :
    list_spanner_resources "P1" c3RawBackend = [] ∧
    list_spanner_resources "P1" c3FqBackend =
      [{ instance_id := "i1", database_id := "db1" }] :=
  ⟨by decide, by decide⟩

/- ================== driver-loop lemmas ================== -/

theorem flushStep_flushEvals (env : Env) (s : RunState) :
    (flushStep env s).flushEvals = s.flushEvals := by
  simp only [flushStep]
  split <;> rfl

theorem flushStep_buffer (env : Env) (s : RunState) :
    (flushStep env s).buffer = [] := by
  simp only [flushStep]
  split
  · rename_i h
    exact List.isEmpty_iff.mp h
  · rfl

theorem mainStep_flushEvals (env : Env) (N i : Nat) (pid : String) (s : RunState)
    (h : (list_spanner_resources pid env.admin).isEmpty = false) :
    (mainStep env N i pid s).flushEvals =
      s.flushEvals + (if (i + 1) % 5 = 0 ∨ i + 1 = N then 1 else 0) := by
  simp only [mainStep, h]
  by_cases hc : (i + 1) % 5 = 0 ∨ i + 1 = N
  · simp [hc, flushStep_flushEvals]
  · simp [hc]

theorem mainLoop_flushEvals (env : Env) (N : Nat) :
    ∀ (ps : List String) (i : Nat) (s : RunState),
      (∀ pid ∈ ps, (list_spanner_resources pid env.admin).isEmpty = false) →
      (mainLoop env N i ps s).flushEvals = s.flushEvals + flushCount N i ps.length := by
  intro ps
  induction ps with
  | nil => intro i s _; simp [mainLoop, flushCount]
  | cons pid rest ih =>
    intro i s h
    simp only [mainLoop, List.length_cons]
    rw [ih (i + 1) _ (fun q hq => h q (List.mem_cons_of_mem _ hq)),
      mainStep_flushEvals env N i pid s (h pid (List.mem_cons_self _ _))]
    simp only [flushCount]
    by_cases hc : (i + 1) % 5 = 0 ∨ i + 1 = N <;> simp [hc, Nat.add_assoc]

theorem flushCount_closed (N : Nat) :
    ∀ (len i : Nat), i + len = N →
      flushCount N i len = N / 5 - i / 5 + (if N % 5 = 0 ∨ len = 0 then 0 else 1) := by
  intro len
  induction len with
  | zero => intro i h; simp [flushCount]; omega
  | succ len ih =>
    intro i h
    rw [flushCount, ih (i + 1) (by omega)]
    by_cases h1 : (i + 1) % 5 = 0 <;> by_cases h2 : i + 1 = N <;>
      by_cases h3 : len = 0 <;> by_cases h4 : N % 5 = 0 <;>
      simp [h1, h2, h3, h4] <;> omega

theorem mainStep_buffer_on_cadence (env : Env) (N i : Nat) (pid : String) (s : RunState)
    (hd : (list_spanner_resources pid env.admin).isEmpty = false)
    (hc : (i + 1) % 5 = 0 ∨ i + 1 = N) :
    (mainStep env N i pid s).buffer = [] := by
  simp only [mainStep, hd]
  simp only [Bool.false_eq_true, if_false, if_pos hc]
  exact flushStep_buffer env _

theorem mainLoop_buffer_empty (env : Env) (N : Nat) :
    ∀ (ps : List String) (i : Nat) (s : RunState),
      ps ≠ [] → i + ps.length = N →
      (∀ pid ∈ ps, (list_spanner_resources pid env.admin).isEmpty = false) →
      (mainLoop env N i ps s).buffer = [] := by
  intro ps
  induction ps with
  | nil => intro i s h; exact absurd rfl h
  | cons pid rest ih =>
    intro i s _ hlen hall
    simp only [mainLoop]
    cases rest with
    | nil =>
      simp only [mainLoop]
      refine mainStep_buffer_on_cadence env N i pid s
        (hall pid (List.mem_cons_self _ _)) (Or.inr ?_)
      simpa using hlen
    | cons q qs =>
      refine ih (i + 1) (mainStep env N i pid s) (by simp) ?_
        (fun r hr => hall r (List.mem_cons_of_mem _ hr))
      simp only [List.length_cons] at hlen ⊢
      omega

theorem mainStep_order (env : Env) (N i : Nat) (pid : String) (s : RunState) :
    (mainStep env N i pid s).inserts.flatten ++ (mainStep env N i pid s).buffer =
      s.inserts.flatten ++ s.buffer ++ projectRows env pid := by
  by_cases hd : (list_spanner_resources pid env.admin).isEmpty = true
  · have hrows : projectRows env pid = [] := by
      simp only [projectRows, List.isEmpty_iff.mp hd]
      rfl
    simp [mainStep, hd, hrows]
  · simp only [mainStep, hd]
    simp only [Bool.false_eq_true, if_false]
    by_cases hc : (i + 1) % 5 = 0 ∨ i + 1 = N
    · simp only [if_pos hc, flushStep]
      split
      · simp [List.append_assoc]
      · simp [List.flatten_append, List.append_assoc]
    · simp [if_neg hc, List.append_assoc]

theorem mainLoop_order (env : Env) (N : Nat) :
    ∀ (ps : List String) (i : Nat) (s : RunState),
      (mainLoop env N i ps s).inserts.flatten ++ (mainLoop env N i ps s).buffer =
        s.inserts.flatten ++ s.buffer ++ (ps.map (projectRows env)).flatten := by
  intro ps
  induction ps with
  | nil => intro i s; simp [mainLoop]
  | cons pid rest ih =>
    intro i s
    simp only [mainLoop, List.map_cons, List.flatten_cons]
    rw [ih (i + 1), mainStep_order]
    simp [List.append_assoc]

theorem flushStep_sink (env : Env) (s : RunState) (σ : List SchemaField)
    (base : List Dict) (h : s.sink.table = some ⟨σ, base ++ s.inserts.flatten⟩) :
    (flushStep env s).sink.table =
      some ⟨σ, base ++ (flushStep env s).inserts.flatten⟩ := by
  simp only [flushStep]
  split
  · exact h
  · simp [bqInsert, h, List.flatten_append, List.append_assoc]

theorem mainStep_sink (env : Env) (N i : Nat) (pid : String) (s : RunState)
    (σ : List SchemaField) (base : List Dict)
    (h : s.sink.table = some ⟨σ, base ++ s.inserts.flatten⟩) :
    (mainStep env N i pid s).sink.table =
      some ⟨σ, base ++ (mainStep env N i pid s).inserts.flatten⟩ := by
  by_cases hd : (list_spanner_resources pid env.admin).isEmpty = true
  · simpa [mainStep, hd] using h
  · simp only [mainStep, hd, Bool.false_eq_true, if_false]
    by_cases hc : (i + 1) % 5 = 0 ∨ i + 1 = N
    · simp only [if_pos hc]
      exact flushStep_sink env _ σ base h
    · simpa [if_neg hc] using h

theorem mainLoop_sink (env : Env) (N : Nat) :
    ∀ (ps : List String) (i : Nat) (s : RunState) (σ : List SchemaField)
      (base : List Dict),
      s.sink.table = some ⟨σ, base ++ s.inserts.flatten⟩ →
      (mainLoop env N i ps s).sink.table =
        some ⟨σ, base ++ (mainLoop env N i ps s).inserts.flatten⟩ := by
  intro ps
  induction ps with
  | nil => intro i s σ base h; simpa [mainLoop] using h
  | cons pid rest ih =>
    intro i s σ base h
    simp only [mainLoop]
    exact ih (i + 1) _ σ base (mainStep_sink env N i pid s σ base h)

/- ================== claim theorems: the driver ================== -/

/-- C1 counterexample: with project list `["p1", "p2"]` under `c1Env` —
the final project `p2` discovers no resources — the `continue` skips the
flush-cadence check entirely: the cadence branch runs 0 times instead of
the claimed `ceil(2/5) = 1`, no insert is ever made, and the row
extracted from `p1` stays in the buffer after the run, never loaded. -/
theorem main_flush_cadence_cex :
    (runMain c1Env ["p1", "p2"] bq0).flushEvals ≠ (2 + 4) / 5 ∧
    (runMain c1Env ["p1", "p2"] bq0).buffer ≠ [] ∧
    (runMain c1Env ["p1", "p2"] bq0).inserts = [] :=
  ⟨by decide, by decide, by decide⟩

/-- C1 [corrected]: the flush-cadence branch runs after the k-th
processed project only if that project's discovery returned a non-empty
resource list (an empty discovery `continue`s past the check).  When
every configured project discovers at least one resource, the claim
holds as stated: the cadence branch runs exactly `ceil(N/5)` times —
`(N+4)/5` — with no double flush when `5 ∣ N`, and the buffer is always
empty (hence fully loaded) after the final project. -/
theorem main_flush_cadence_amended (env : Env) (ps : List String) (sink0 : BQState)
    (h : ∀ pid ∈ ps, (list_spanner_resources pid env.admin).isEmpty = false) :
    (runMain env ps sink0).flushEvals = (ps.length + 4) / 5 ∧
    (runMain env ps sink0).buffer = [] := by
  constructor
  · unfold runMain
    rw [mainLoop_flushEvals env ps.length ps 0 _ h,
      flushCount_closed ps.length ps.length 0 (by omega)]
    by_cases h5 : ps.length % 5 = 0 <;> by_cases h0 : ps.length = 0 <;>
      simp [h5, h0] <;> omega
  · cases hps : ps with
    | nil => subst hps; rfl
    | cons q qs =>
      subst hps
      unfold runMain
      exact mainLoop_buffer_empty env (q :: qs).length (q :: qs) 0 _ (by simp)
        (by omega) h

theorem main_flush_cadence_amended_witness :
    (runMain c1Env ["p1"] bq0).flushEvals = ((["p1"] : List String).length + 4) / 5 ∧
    (runMain c1Env ["p1"] bq0).buffer = [] :=
  main_flush_cadence_amended c1Env ["p1"] bq0 (by decide)

/-- C10 [confirmed]: the batch buffer is append-only between flushes and
its order reaches the sink intact: concatenating the rows of the bulk
inserts, in call order, followed by whatever remains in the buffer,
yields exactly the extracted rows in canonical order — ascending
project-list position (`ps.map`), discovered-resource order within a
project and result-set row order within a database (`projectRows`) —
so the buffer's only mutations are extension by extracted rows and
reset at flush. -/
theorem main_buffer_order (env : Env) (ps : List String) (sink0 : BQState) :
    (runMain env ps sink0).inserts.flatten ++ (runMain env ps sink0).buffer =
      (ps.map (projectRows env)).flatten := by
  unfold runMain
  rw [mainLoop_order]
  simp

/-- C5 [confirmed]: provisioning is idempotent — a second
`setup_bigquery_table` on an already-provisioned destination is a
no-op, leaving the table schema unchanged — and within one run the
table ends up holding exactly this run's inserted rows under the
original schema: the pre-existing rows are truncated exactly once,
before any insert of the run. -/
theorem setup_idempotent_truncate_once (s : BQState) (t0 : BQTableState)
    (h : s.table = some t0) :
    setup_bigquery_table (setup_bigquery_table s) = setup_bigquery_table s ∧
    (setup_bigquery_table s).table = some ⟨t0.schema, []⟩ ∧
    ∀ env ps, (runMain env ps s).sink.table =
      some ⟨t0.schema, (runMain env ps s).inserts.flatten⟩ := by
  have hsetup : setup_bigquery_table s = ⟨true, some ⟨t0.schema, []⟩⟩ := by
    by_cases hd : s.datasetExists <;> simp [setup_bigquery_table, hd, h]
  refine ⟨by rw [hsetup]; rfl, by rw [hsetup], ?_⟩
  intro env ps
  unfold runMain
  have hinit : (⟨[], [], 0, setup_bigquery_table s, []⟩ : RunState).sink.table =
      some ⟨t0.schema, [] ++ ([] : List (List Dict)).flatten⟩ := by
    simp [hsetup]
  simpa using mainLoop_sink env ps.length ps 0 _ t0.schema [] hinit

theorem setup_idempotent_truncate_once_witness :
    setup_bigquery_table (setup_bigquery_table sProvisioned) =
      setup_bigquery_table sProvisioned ∧
    (runMain c1Env ["p1"] sProvisioned).sink.table =
      some ⟨BQ_SCHEMA, (runMain c1Env ["p1"] sProvisioned).inserts.flatten⟩ :=
  ⟨(setup_idempotent_truncate_once sProvisioned _ rfl).1,
   (setup_idempotent_truncate_once sProvisioned _ rfl).2.2 c1Env ["p1"]⟩

/-- C6 [confirmed]: a flush on a non-empty buffer makes exactly one bulk
insert of all buffered rows and then clears the buffer, with the
resulting buffer, insert list and sink state identical whatever per-row
error report `insert_rows_json` returns (errors are only logged, never
retried, re-buffered, or escalated); a flush on an empty buffer changes
nothing. -/
theorem flush_bulk_insert_spec (env : Env) (s : RunState) :
    (s.buffer ≠ [] →
      (flushStep env s).inserts = s.inserts ++ [s.buffer] ∧
      (flushStep env s).buffer = [] ∧
      (flushStep env s).sink = bqInsert s.sink s.buffer) ∧
    (s.buffer = [] → flushStep env s = s) ∧
    ∀ f, (flushStep { env with insertErrors := f } s).inserts = (flushStep env s).inserts ∧
      (flushStep { env with insertErrors := f } s).buffer = (flushStep env s).buffer ∧
      (flushStep { env with insertErrors := f } s).sink = (flushStep env s).sink := by
  refine ⟨?_, ?_, ?_⟩
  · intro hne
    have hb : s.buffer.isEmpty = false := by
      cases hbuf : s.buffer with
      | nil => exact absurd hbuf hne
      | cons a as => rfl
    simp [flushStep, hb]
  · intro he
    simp [flushStep, he]
  · intro f
    by_cases hb : s.buffer.isEmpty = true <;> simp [flushStep, hb]

theorem flush_bulk_insert_spec_witness :
    ((flushStep c1Env sBuffered).inserts = sBuffered.inserts ++ [sBuffered.buffer] ∧
     (flushStep c1Env sBuffered).buffer = [] ∧
     (flushStep c1Env sBuffered).sink = bqInsert sBuffered.sink sBuffered.buffer) ∧
    flushStep c1Env sEmptyBuf = sEmptyBuf :=
  ⟨(flush_bulk_insert_spec c1Env sBuffered).1 (by decide),
   (flush_bulk_insert_spec c1Env sEmptyBuf).2.1 rfl⟩

end SpannerToBQ
